import Mathlib

/-!
Shallow embedding of the vector-store and chat-history core of the
ai-document-chat-agent repository
(app/services/vector_store.py, app/services/chat_service.py,
app/services/local_chat.py), together with proofs checking the
natural-language specification against it.

Modelling conventions:
* A FAISS IndexFlatL2 is modelled as the list of its stored vectors
  (ntotal = length); vectors are lists of integers and the index search is
  exact L2 nearest-neighbour, sorted ascending by squared distance with
  ties broken by insertion order (the documented behaviour of the flat
  index, which is a third-party library, not repository code).
* The embedding backend object (self.embeddings) is modelled by a Bool
  field available (None vs not None, fixed at construction) plus a
  Provider argument passed to each call, giving the backend's responses
  at that call; embed returning none models the backend raising.
* Python mutations persist past a raise, so each operation returns the
  state it leaves behind; a body that can raise returns Except with the
  state at the raise point in the error.
* Disk persistence (_save_index) is modelled by savedIndex/savedMetadata
  fields snapshotting the in-memory pair.
-/

/-- A vector, as stored in the FAISS index. -/
abbrev Vec := List Int

/-- One metadata record, as built by VectorStore.add_documents
(vector_store.py lines 122-130). -/
structure ChunkMeta where
  document_id : String
  filename : String
  chunk_index : Nat
  text : String
  vector_id : Nat
deriving DecidableEq, Inhabited

/-- The embedding backend's behaviour at one call: embed maps a text to a
vector, or none when the backend call raises. -/
structure Provider where
  embed : String → Option Vec

/-- The state of a VectorStore (vector_store.py): availability of the
embedding backend, fixed dimension, FAISS index contents, metadata list,
and the pair persisted on disk by _save_index. -/
structure VectorStore where
  available : Bool
  dimension : Nat
  index : List Vec
  metadata : List ChunkMeta
  savedIndex : List Vec
  savedMetadata : List ChunkMeta
deriving DecidableEq

/-- A fresh store as produced by _create_new_index after construction with
no persisted files: empty index, empty metadata. -/
def emptyStore (available : Bool) (dimension : Nat) : VectorStore :=
  { available := available, dimension := dimension, index := [], metadata := [],
    savedIndex := [], savedMetadata := [] }

/-- embed_documents of the backend: embeds every text of the batch, the
whole call raising (none) if any single embedding fails. -/
def embedDocuments (p : Provider) : List String → Option (List Vec)
  | [] => some []
  | t :: ts =>
    match p.embed t, embedDocuments p ts with
    | some v, some vs => some (v :: vs)
    | _, _ => none

/-- VectorStore._save_index: persists the in-memory index and metadata. -/
def save (s : VectorStore) : VectorStore :=
  { s with savedIndex := s.index, savedMetadata := s.metadata }

/-- The metadata records appended by the loop of add_documents
(lines 122-130): the i-th chunk gets chunk_index i and
vector_id = base + i where base is len(self.metadata) before the loop. -/
def newChunkMetas (document_id filename : String) (base : Nat) :
    Nat → List String → List ChunkMeta
  | _, [] => []
  | i, c :: cs =>
    { document_id := document_id, filename := filename, chunk_index := i,
      text := c, vector_id := base + i } :: newChunkMetas document_id filename base (i + 1) cs

/-- VectorStore.add_documents (lines 108-138). Returns the call outcome
(ok, or the ValueError message raised) together with the state the store
is left in. Both raise points occur before any mutation. -/
def add_documents (s : VectorStore) (p : Provider) (chunks : List String)
    (document_id filename : String) : Except String Unit × VectorStore :=
  if s.available = false then
    (Except.error "No embedding service available. Cannot add documents to vector store.", s)
  else
    match embedDocuments p chunks with
    | none => (Except.error "Error adding documents to vector store", s)
    | some vecs =>
      let s1 := { s with index := s.index ++ vecs,
                         metadata := s.metadata ++ newChunkMetas document_id filename s.metadata.length 0 chunks }
      (Except.ok (), save s1)

/-- Squared L2 distance between two vectors, the raw distance FAISS
IndexFlatL2 reports. -/
def l2dist (v w : Vec) : Int :=
  ((v.zip w).map fun pr => (pr.1 - pr.2) ^ 2).sum

/-- The (distance, slot) pairs of every vector of the index against a
query vector, slots counted from i. -/
def distPairs (qv : Vec) : Nat → List Vec → List (Int × Nat)
  | _, [] => []
  | i, v :: vs => (l2dist qv v, i) :: distPairs qv (i + 1) vs

/-- FAISS IndexFlatL2.search: the k entries of smallest distance, sorted
ascending by distance, ties broken by insertion order (stable sort over
the slot-ordered pair list). -/
def searchIndex (index : List Vec) (qv : Vec) (k : Nat) : List (Int × Nat) :=
  ((distPairs qv 0 index).mergeSort (fun a b => decide (a.1 ≤ b.1))).take k

/-- One enriched search result: the copied metadata record plus the
similarity_score and rank keys attached by similarity_search. -/
structure SearchResult where
  document_id : String
  filename : String
  chunk_index : Nat
  text : String
  vector_id : Nat
  similarity_score : Int
  rank : Nat
deriving DecidableEq, Inhabited

/-- The enrichment of one metadata record (lines 161-163). -/
def joinMeta (m : ChunkMeta) (score : Int) (rank : Nat) : SearchResult :=
  { document_id := m.document_id, filename := m.filename,
    chunk_index := m.chunk_index, text := m.text, vector_id := m.vector_id,
    similarity_score := score, rank := rank }

/-- The result-building loop of similarity_search (lines 158-164):
enumerates the (distance, slot) pairs from position i, keeps only slots
within the metadata table, and sets rank from the loop counter. -/
def buildResults (metadata : List ChunkMeta) : Nat → List (Int × Nat) → List SearchResult
  | _, [] => []
  | i, pr :: rest =>
    if pr.2 < metadata.length then
      joinMeta (metadata.getD pr.2 default) pr.1 (i + 1) :: buildResults metadata (i + 1) rest
    else
      buildResults metadata (i + 1) rest

/-- VectorStore.similarity_search (lines 140-170): empty list when the
backend is unavailable or the index is empty; the search body is wrapped
in try/except returning empty on any failure, in particular when
embed_query raises. -/
def similarity_search (s : VectorStore) (p : Provider) (query : String) (k : Nat) :
    List SearchResult :=
  if s.available = false then []
  else if s.index.length = 0 then []
  else
    match p.embed query with
    | none => []
    | some qv => buildResults s.metadata 0 (searchIndex s.index qv (min k s.index.length))

/-- The slot-reassignment loop of remove_document (lines 200-201):
vector_id of the i-th surviving record becomes i. -/
def reassignSlots : Nat → List ChunkMeta → List ChunkMeta
  | _, [] => []
  | i, m :: ms => { m with vector_id := i } :: reassignSlots (i + 1) ms

/-- The body of remove_document inside its try (lines 174-210). An error
value carries the state at the raise point: the metadata entries are
already deleted when embed_documents raises during the rebuild (or when
self.embeddings is None, making the attribute access raise). -/
def removeDocBody (s : VectorStore) (p : Provider) (document_id : String) :
    Except VectorStore (Bool × VectorStore) :=
  let keep := s.metadata.filter fun m => decide (m.document_id ≠ document_id)
  if (s.metadata.filter fun m => decide (m.document_id = document_id)) = [] then
    Except.ok (false, s)
  else
    let s1 := { s with metadata := keep }
    if keep = [] then
      Except.ok (true, save { s1 with index := [] })
    else if s.available = false then
      Except.error s1
    else
      match embedDocuments p (keep.map fun m => m.text) with
      | none => Except.error s1
      | some vecs =>
        Except.ok (true, save { s1 with index := vecs, metadata := reassignSlots 0 keep })

/-- VectorStore.remove_document (lines 172-214): the body runs under a
catch-all except that prints the error and returns False, keeping
whatever state the body left behind. -/
def remove_document (s : VectorStore) (p : Provider) (document_id : String) :
    Bool × VectorStore :=
  match removeDocBody s p document_id with
  | Except.ok r => r
  | Except.error s1 => (false, s1)

/-- The set-building loop of get_stats (lines 218-220), a Python set
modelled as a duplicate-free list grown in first-seen order. -/
def collectDocIds : List ChunkMeta → List String → List String
  | [], acc => acc
  | m :: ms, acc =>
    collectDocIds ms (if m.document_id ∈ acc then acc else acc ++ [m.document_id])

/-- The record returned by get_stats. -/
structure Stats where
  total_chunks : Nat
  total_documents : Nat
  index_size : Nat
  dimension : Nat
deriving DecidableEq

/-- VectorStore.get_stats (lines 216-227). -/
def get_stats (s : VectorStore) : Stats :=
  { total_chunks := s.metadata.length,
    total_documents := (collectDocIds s.metadata []).length,
    index_size := s.index.length,
    dimension := s.dimension }

/-- VectorStore.clear_all (lines 229-234): fresh empty index, empty
metadata, persisted. -/
def clear_all (s : VectorStore) : VectorStore :=
  save { s with index := [], metadata := [] }

/-- One public mutating call on the store, carrying the backend's
responses at that call. -/
inductive StoreOp where
  | addDocs (p : Provider) (chunks : List String) (document_id filename : String)
  | removeDoc (p : Provider) (document_id : String)
  | clearAll

/-- The state after one public mutating call returns (normally or by an
error path). -/
def applyOp (s : VectorStore) : StoreOp → VectorStore
  | StoreOp.addDocs p chunks did fn => (add_documents s p chunks did fn).2
  | StoreOp.removeDoc p did => (remove_document s p did).2
  | StoreOp.clearAll => clear_all s

/-- The state after a sequence of public mutating calls. -/
def runOps (s : VectorStore) (ops : List StoreOp) : VectorStore :=
  ops.foldl applyOp s

/-- Discriminator for the error case of Except. -/
def isError : Except ε α → Bool
  | Except.error _ => true
  | Except.ok _ => false

/-- A backend whose every call succeeds with a fixed vector of length 2. -/
def embedOK : Provider := ⟨fun _ => some [0, 0]⟩

/-- A backend whose every call raises. -/
def embedFail : Provider := ⟨fun _ => none⟩

/-- A store holding one chunk of document d1 and one chunk of document d2,
reached from the empty store by two successful add_documents calls. -/
def twoDocStore : VectorStore :=
  runOps (emptyStore true 2)
    [StoreOp.addDocs embedOK ["a"] "d1" "f1",
     StoreOp.addDocs embedOK ["b"] "d2" "f2"]

/-- Two successful adds followed by a remove_document call during which
the embedding backend fails. -/
def failingRemoveSeq : List StoreOp :=
  [StoreOp.addDocs embedOK ["a"] "d1" "f1",
   StoreOp.addDocs embedOK ["b"] "d2" "f2",
   StoreOp.removeDoc embedFail "d1"]

/-- One stored conversation turn: a role tag and its content, as appended
by ChatService.chat and LocalChatService.chat. -/
structure Msg where
  role : String
  content : String
deriving DecidableEq, Inhabited

/-- The conversations dictionary of a chat service: conversation id to
ordered turn list. -/
abbrev Conversations := List (String × List Msg)

/-- Python dict assignment conversations[cid] = h: replaces the entry if
present, otherwise appends a fresh one. -/
def updateConv : Conversations → String → List Msg → Conversations
  | [], cid, h => [(cid, h)]
  | (key, v) :: rest, cid, h =>
    if key = cid then (key, h) :: rest else (key, v) :: updateConv rest cid h

/-- The history update both chat services perform after a successful
answer (chat_service.py lines 161-172, local_chat.py lines 81-92): append
the user turn then the assistant turn, and when more than 20 entries
result keep only the last 20. -/
def histAfter (old : List Msg) (question answer : String) : List Msg :=
  let h := old ++ [⟨"user", question⟩, ⟨"assistant", answer⟩]
  if 20 < h.length then h.drop (h.length - 20) else h

/-- The state of a ChatService: whether the LLM client is configured, and
the conversations dictionary. -/
structure ChatService where
  llmConfigured : Bool
  conversations : Conversations
deriving DecidableEq

/-- The reply of ChatService.chat restricted to the fields the history
contract mentions: the answer text and whether an error field is set. -/
structure ChatReply where
  answer : String
  errored : Bool
deriving DecidableEq

/-- ChatService.chat (chat_service.py lines 90-190) restricted to its
effect on conversation state and its outcome: an unconfigured LLM client
or a failed completion call (llmResponse none, the inner except branch)
returns an apology reply and leaves conversations untouched; a successful
answer appends the user and assistant turns to the conversation and trims
it. The prompt assembly (system prompt, last six history turns, sources)
reads but never writes conversation state and is omitted. -/
def ChatService.chat (cs : ChatService) (question cid : String)
    (llmResponse : Option String) : ChatReply × ChatService :=
  if cs.llmConfigured = false then
    ({ answer := "I apologize, but the AI chat service is not configured. Please set up your Azure OpenAI credentials in the .env file to enable chat functionality.",
       errored := true }, cs)
  else
    match llmResponse with
    | none =>
      ({ answer := "I apologize, but there was an error retrieving the response from the AI service. Please try again later.",
         errored := true }, cs)
    | some answer =>
      let newConv := updateConv cs.conversations cid
        (histAfter ((cs.conversations.lookup cid).getD []) question answer)
      ({ answer := answer, errored := false }, { cs with conversations := newConv })

/-- LocalChatService.chat (local_chat.py lines 64-112) restricted to its
effect on conversation state: the local answer synthesis is a pure
computation that cannot fail, so the history update always runs; the
synthesized answer text is passed as the answer argument. -/
def LocalChatService.chat (conversations : Conversations)
    (question cid answer : String) : Conversations :=
  updateConv conversations cid
    (histAfter ((conversations.lookup cid).getD []) question answer)

/-- One chat call: question, conversation id, and the completion
backend's response at that call (none when the call raises). -/
inductive ChatCall where
  | call (question cid : String) (llmResponse : Option String)

/-- The chat service state after a sequence of chat calls. -/
def runChat (cs : ChatService) : List ChatCall → ChatService
  | [] => cs
  | ChatCall.call q cid r :: rest => runChat (cs.chat q cid r).2 rest


/-- C6: add_documents on a store whose embedding provider is unavailable
fails with an explicit error before any mutation, leaving the whole store
state (index, metadata, persisted files) exactly as it was, for every
chunk list, document_id and filename. -/
theorem add_documents_unavailable_no_mutation (s : VectorStore) (p : Provider)
    (chunks : List String) (document_id filename : String)
    (hav : s.available = false) :
    add_documents s p chunks document_id filename
      = (Except.error "No embedding service available. Cannot add documents to vector store.", s) := by
  unfold add_documents
  rw [if_pos hav]

/-- Witness for C6 at a concrete unavailable store. -/
theorem add_documents_unavailable_no_mutation_witness :
    add_documents (emptyStore false 384) embedOK ["c1", "c2"] "d1" "f1"
      = (Except.error "No embedding service available. Cannot add documents to vector store.",
         emptyStore false 384) :=
  add_documents_unavailable_no_mutation (emptyStore false 384) embedOK ["c1", "c2"] "d1" "f1" rfl

/-- C7: remove_document on a document_id with no matching chunk returns
false and leaves the entire store state unchanged. -/
theorem remove_document_missing_noop (s : VectorStore) (p : Provider) (document_id : String)
    (hnone : ∀ m ∈ s.metadata, m.document_id ≠ document_id) :
    remove_document s p document_id = (false, s) := by
  unfold remove_document removeDocBody
  have hfil : (s.metadata.filter fun m => decide (m.document_id = document_id)) = [] := by
    rw [List.filter_eq_nil_iff]
    intro m hm
    simpa using hnone m hm
  rw [if_pos hfil]

/-- Witness for C7 on a concrete store holding other documents. -/
theorem remove_document_missing_noop_witness :
    remove_document twoDocStore embedOK "missing" = (false, twoDocStore) :=
  remove_document_missing_noop twoDocStore embedOK "missing" (by decide)

/-- C10: remove_document is total over internal failures: it always
returns a boolean paired with the resulting state, and whenever its body
raises internally (modelled by removeDocBody returning an error carrying
the state at the raise point) the call returns false with that state. -/
theorem remove_document_total (s : VectorStore) (p : Provider) (document_id : String) :
    (∃ b s1, remove_document s p document_id = (b, s1))
    ∧ ∀ e, removeDocBody s p document_id = Except.error e →
        remove_document s p document_id = (false, e) := by
  constructor
  · exact ⟨(remove_document s p document_id).1, (remove_document s p document_id).2, rfl⟩
  · intro e he
    unfold remove_document
    rw [he]

/-- Witness for C10: a concrete call whose body raises (embedding backend
failing during the rebuild) returns false. -/
theorem remove_document_total_witness :
    (∃ b s1, remove_document twoDocStore embedFail "d1" = (b, s1))
    ∧ remove_document twoDocStore embedFail "d1"
        = (false, { twoDocStore with
            metadata := twoDocStore.metadata.filter fun m => decide (m.document_id ≠ "d1") }) := by
  refine ⟨(remove_document_total twoDocStore embedFail "d1").1, ?_⟩
  exact (remove_document_total twoDocStore embedFail "d1").2 _ (by rfl)

/-- C4: similarity_search returns the empty list, raising nothing, when
the embedding backend is unavailable, when the index is empty, and when
the embedding call itself fails. -/
theorem similarity_search_degraded (s : VectorStore) (p : Provider) (query : String) (k : Nat) :
    (s.available = false → similarity_search s p query k = [])
    ∧ (s.index = [] → similarity_search s p query k = [])
    ∧ (p.embed query = none → similarity_search s p query k = []) := by
  refine ⟨?_, ?_, ?_⟩
  · intro h
    unfold similarity_search
    rw [if_pos h]
  · intro h
    unfold similarity_search
    rw [h]
    simp
  · intro h
    unfold similarity_search
    rw [h]
    by_cases hav : s.available = false
    · rw [if_pos hav]
    · rw [if_neg hav]
      by_cases hi : s.index.length = 0
      · rw [if_pos hi]
      · rw [if_neg hi]

/-- Witness for C4: a store with documents but an unavailable backend, an
empty store, and a failing embedding call all yield the empty result. -/
theorem similarity_search_degraded_witness :
    similarity_search { twoDocStore with available := false } embedOK "query" 5 = []
    ∧ similarity_search (emptyStore true 2) embedOK "query" 5 = []
    ∧ similarity_search twoDocStore embedFail "query" 5 = [] :=
  ⟨(similarity_search_degraded { twoDocStore with available := false } embedOK "query" 5).1 rfl,
   (similarity_search_degraded (emptyStore true 2) embedOK "query" 5).2.1 rfl,
   (similarity_search_degraded twoDocStore embedFail "query" 5).2.2 rfl⟩

/-- C1 (violation): running add d1, add d2, then remove d1 with the
embedding backend failing during the rebuild leaves one metadata record
but two vectors in the index, so len(metadata) is not equal to
index.ntotal after that call returns by its error path. -/
theorem metadata_index_counts_diverge_after_failed_remove :
    (runOps (emptyStore true 2) failingRemoveSeq).metadata.length = 1
    ∧ (runOps (emptyStore true 2) failingRemoveSeq).index.length = 2 := by
  decide

/-- C2 (violation): after the same failed remove_document call, the
surviving record sits at position 0 of the metadata table but its
vector_id field still holds 1. -/
theorem slot_diverges_from_position_after_failed_remove :
    ((runOps (emptyStore true 2) failingRemoveSeq).metadata.getD 0 default).vector_id = 1
    ∧ 0 < (runOps (emptyStore true 2) failingRemoveSeq).metadata.length := by
  decide

/-- C3 (counterexample): on a store holding documents d1 and d2, a
remove_document of d1 during which the embedding backend raises has its
body raise (isError), yet the call returns false instead of propagating,
and it leaves the state half-updated: the metadata table changed while
the index kept all pre-call vectors, the two now disagreeing in length. -/
theorem remove_document_error_swallowed_half_update :
    isError (removeDocBody twoDocStore embedFail "d1") = true
    ∧ (remove_document twoDocStore embedFail "d1").1 = false
    ∧ (remove_document twoDocStore embedFail "d1").2.metadata ≠ twoDocStore.metadata
    ∧ (remove_document twoDocStore embedFail "d1").2.index = twoDocStore.index
    ∧ (remove_document twoDocStore embedFail "d1").2.metadata.length
        ≠ (remove_document twoDocStore embedFail "d1").2.index.length := by
  decide

/-- C3 (amended): if re-embedding fails during remove_document while some
chunks match and some survive, the embedding error is caught and the call
returns false, leaving the in-memory state half-updated: the matching
metadata records are deleted (surviving slots untouched) while the index
and the persisted files keep their pre-call contents. -/
theorem remove_document_embed_failure_half_update (s : VectorStore) (p : Provider)
    (document_id : String)
    (hmatch : (s.metadata.filter fun m => decide (m.document_id = document_id)) ≠ [])
    (hkeep : (s.metadata.filter fun m => decide (m.document_id ≠ document_id)) ≠ [])
    (hav : s.available = true)
    (hembed : embedDocuments p
        ((s.metadata.filter fun m => decide (m.document_id ≠ document_id)).map fun m => m.text)
      = none) :
    remove_document s p document_id
      = (false, { s with metadata := s.metadata.filter fun m => decide (m.document_id ≠ document_id) }) := by
  unfold remove_document removeDocBody
  simp only []
  rw [if_neg hmatch, if_neg hkeep, hav]
  simp only [Bool.true_eq_false, if_false, hembed]

/-- Witness for the amended C3 at a concrete two-document store with a
failing backend. -/
theorem remove_document_embed_failure_half_update_witness :
    remove_document twoDocStore embedFail "d1"
      = (false, { twoDocStore with
          metadata := twoDocStore.metadata.filter fun m => decide (m.document_id ≠ "d1") }) :=
  remove_document_embed_failure_half_update twoDocStore embedFail "d1"
    (by decide) (by decide) rfl rfl

/-- The set built by the get_stats loop stays duplicate-free. -/
theorem collectDocIds_nodup (ms : List ChunkMeta) (acc : List String) (h : acc.Nodup) :
    (collectDocIds ms acc).Nodup := by
  induction ms generalizing acc with
  | nil => exact h
  | cons m ms ih =>
    unfold collectDocIds
    by_cases hx : m.document_id ∈ acc
    · rw [if_pos hx]
      exact ih acc h
    · rw [if_neg hx]
      refine ih _ ?_
      rw [List.nodup_append]
      exact ⟨h, List.nodup_singleton _, by simpa using hx⟩

/-- The set built by the get_stats loop holds exactly the document_id
values of the records together with the accumulator. -/
theorem collectDocIds_toFinset (ms : List ChunkMeta) (acc : List String) :
    (collectDocIds ms acc).toFinset = acc.toFinset ∪ (ms.map fun m => m.document_id).toFinset := by
  induction ms generalizing acc with
  | nil => simp [collectDocIds]
  | cons m ms ih =>
    unfold collectDocIds
    by_cases hx : m.document_id ∈ acc
    · rw [if_pos hx, ih]
      ext a
      simp only [List.map_cons, List.toFinset_cons, Finset.mem_union, List.mem_toFinset,
        Finset.mem_insert]
      constructor
      · tauto
      · rintro (h | h | h)
        · exact Or.inl h
        · subst h
          exact Or.inl hx
        · exact Or.inr h
    · rw [if_neg hx, ih]
      ext a
      simp only [List.toFinset_append, List.map_cons, List.toFinset_cons, Finset.mem_union,
        List.mem_toFinset, List.toFinset_cons, Finset.mem_insert, List.mem_singleton,
        List.toFinset_nil, Finset.mem_singleton]
      tauto

/-- The document-id set size computed by get_stats equals the number of
distinct document_id values among the metadata records. -/
theorem collectDocIds_length (ms : List ChunkMeta) :
    (collectDocIds ms []).length = ((ms.map fun m => m.document_id).dedup).length := by
  have hnd : (collectDocIds ms []).Nodup := collectDocIds_nodup ms [] (by simp)
  have h1 : (collectDocIds ms []).toFinset.card = (collectDocIds ms []).length :=
    List.toFinset_card_of_nodup hnd
  have h2 : (collectDocIds ms []).toFinset = (ms.map fun m => m.document_id).toFinset := by
    rw [collectDocIds_toFinset]
    simp
  rw [← h1, h2, List.card_toFinset]

/-- C9: for every store state, get_stats reports total_chunks equal to the
metadata length, total_documents equal to the number of distinct
document_id values among the records, index_size equal to the index's
vector count and the store's fixed dimension; the result never depends on
(and never fails for) an unavailable embedding backend. -/
theorem get_stats_spec (s : VectorStore) :
    (get_stats s).total_chunks = s.metadata.length
    ∧ (get_stats s).total_documents = ((s.metadata.map fun m => m.document_id).dedup).length
    ∧ (get_stats s).index_size = s.index.length
    ∧ (get_stats s).dimension = s.dimension
    ∧ ∀ b, get_stats { s with available := b } = get_stats s :=
  ⟨rfl, collectDocIds_length s.metadata, rfl, rfl, fun _ => rfl⟩

/-- The distance-pair list ranges over every vector of the index. -/
theorem distPairs_length (qv : Vec) (i : Nat) (vs : List Vec) :
    (distPairs qv i vs).length = vs.length := by
  induction vs generalizing i with
  | nil => rfl
  | cons v vs ih => simp [distPairs, ih]

/-- Every distance pair carries the slot of one index vector together
with its raw L2 distance to the query. -/
theorem distPairs_mem (qv : Vec) (i : Nat) (vs : List Vec) (x : Int × Nat)
    (hx : x ∈ distPairs qv i vs) :
    ∃ j, j < vs.length ∧ x.2 = i + j ∧ x.1 = l2dist qv (vs.getD j default) := by
  induction vs generalizing i with
  | nil => simp [distPairs] at hx
  | cons v vs ih =>
    rw [distPairs, List.mem_cons] at hx
    rcases hx with hx | hx
    · exact ⟨0, by simp, by simp [hx], by simp [hx]⟩
    · obtain ⟨j, hj, h2, h1⟩ := ih (i + 1) hx
      refine ⟨j + 1, ?_, by omega, by simpa using h1⟩
      simp only [List.length_cons]
      omega

/-- The FAISS search model returns min(k, ntotal) entries. -/
theorem searchIndex_length (index : List Vec) (qv : Vec) (k : Nat) :
    (searchIndex index qv k).length = min k index.length := by
  unfold searchIndex
  rw [List.length_take, List.length_mergeSort, distPairs_length]

/-- Every entry the FAISS search model returns is an in-range slot with
its raw L2 distance to the query. -/
theorem searchIndex_mem (index : List Vec) (qv : Vec) (k : Nat) (x : Int × Nat)
    (hx : x ∈ searchIndex index qv k) :
    x.2 < index.length ∧ x.1 = l2dist qv (index.getD x.2 default) := by
  unfold searchIndex at hx
  have hx1 : x ∈ (distPairs qv 0 index).mergeSort (fun a b => decide (a.1 ≤ b.1)) :=
    List.take_subset _ _ hx
  have hx2 : x ∈ distPairs qv 0 index :=
    (List.mergeSort_perm (distPairs qv 0 index) _).mem_iff.mp hx1
  obtain ⟨j, hj, h2, h1⟩ := distPairs_mem qv 0 index x hx2
  rw [Nat.zero_add] at h2
  subst h2
  exact ⟨hj, h1⟩

/-- The entries the FAISS search model returns are sorted ascending by
distance. -/
theorem searchIndex_sorted (index : List Vec) (qv : Vec) (k : Nat) :
    (searchIndex index qv k).Pairwise (fun a b => a.1 ≤ b.1) := by
  unfold searchIndex
  have hs : ((distPairs qv 0 index).mergeSort (fun a b => decide (a.1 ≤ b.1))).Pairwise
      (fun a b => decide (a.1 ≤ b.1) = true) := by
    refine List.sorted_mergeSort ?_ ?_ _
    · intro a b c hab hbc
      simp only [decide_eq_true_eq] at *
      omega
    · intro a b
      rcases le_total a.1 b.1 with h | h <;> simp [h]
  have hp := List.Pairwise.sublist (List.take_sublist k _) hs
  exact hp.imp fun h => by simpa using h

/-- When every returned slot is within the metadata table, the result
loop of similarity_search keeps every entry. -/
theorem buildResults_length (metadata : List ChunkMeta) (i : Nat) (l : List (Int × Nat))
    (hb : ∀ x ∈ l, x.2 < metadata.length) :
    (buildResults metadata i l).length = l.length := by
  induction l generalizing i with
  | nil => rfl
  | cons x rest ih =>
    rw [buildResults, if_pos (hb x (List.mem_cons_self x rest))]
    simp only [List.length_cons, ih (i + 1) fun y hy => hb y (List.mem_cons_of_mem x hy)]

/-- When every returned slot is within the metadata table, the scores of
the built results are exactly the distances, in order. -/
theorem buildResults_map_score (metadata : List ChunkMeta) (i : Nat) (l : List (Int × Nat))
    (hb : ∀ x ∈ l, x.2 < metadata.length) :
    (buildResults metadata i l).map (fun r => r.similarity_score) = l.map fun x => x.1 := by
  induction l generalizing i with
  | nil => rfl
  | cons x rest ih =>
    rw [buildResults, if_pos (hb x (List.mem_cons_self x rest))]
    simp only [List.map_cons, joinMeta, ih (i + 1) fun y hy => hb y (List.mem_cons_of_mem x hy)]

/-- When every returned slot is within the metadata table, the j-th built
result joins the j-th returned pair and carries rank i + j + 1. -/
theorem buildResults_getD (metadata : List ChunkMeta) (i j : Nat) (l : List (Int × Nat))
    (hb : ∀ x ∈ l, x.2 < metadata.length) (hj : j < l.length) :
    (buildResults metadata i l).getD j default
      = joinMeta (metadata.getD (l.getD j (0, 0)).2 default) (l.getD j (0, 0)).1 (i + j + 1) := by
  induction l generalizing i j with
  | nil => simp at hj
  | cons x rest ih =>
    rw [buildResults, if_pos (hb x (List.mem_cons_self x rest))]
    cases j with
    | zero => simp
    | succ j =>
      have hrest : ∀ y ∈ rest, y.2 < metadata.length :=
        fun y hy => hb y (List.mem_cons_of_mem x hy)
      have hj' : j < rest.length := by simpa using hj
      have harith : i + 1 + j + 1 = i + (j + 1) + 1 := by omega
      simp only [List.getD_cons_succ]
      rw [ih (i + 1) j hrest hj', harith]

/-- C5: on a store whose index and metadata agree in length, with the
backend available and the query embedding succeeding, similarity_search
returns exactly min(k, ntotal) results whose similarity_score values are
sorted ascending, and whose j-th element joins the fields of one metadata
record with the raw L2 distance of the query to that slot's vector and
rank j + 1 (1-based position in the returned order). -/
theorem similarity_search_ranked (s : VectorStore) (p : Provider) (query : String)
    (k : Nat) (qv : Vec)
    (hav : s.available = true) (hemb : p.embed query = some qv)
    (hinv : s.metadata.length = s.index.length) (hk : 1 ≤ k) :
    (similarity_search s p query k).length = min k s.index.length
    ∧ List.Sorted (· ≤ ·) ((similarity_search s p query k).map fun r => r.similarity_score)
    ∧ ∀ j, j < (similarity_search s p query k).length →
        ∃ slot, slot < s.index.length
          ∧ (similarity_search s p query k).getD j default
              = joinMeta (s.metadata.getD slot default)
                  (l2dist qv (s.index.getD slot default)) (j + 1) := by
  by_cases hn : s.index.length = 0
  · have hres : similarity_search s p query k = [] := by
      unfold similarity_search
      rw [hav]
      simp [hn]
    rw [hres, hn]
    exact ⟨by simp, by simp, fun j hj => by simp at hj⟩
  · have hres : similarity_search s p query k
        = buildResults s.metadata 0 (searchIndex s.index qv (min k s.index.length)) := by
      unfold similarity_search
      rw [hav, hemb]
      simp [hn]
    have hb : ∀ x ∈ searchIndex s.index qv (min k s.index.length), x.2 < s.metadata.length :=
      fun x hx => by
        rw [hinv]
        exact (searchIndex_mem _ _ _ x hx).1
    have hlen : (searchIndex s.index qv (min k s.index.length)).length = min k s.index.length := by
      rw [searchIndex_length]
      omega
    refine ⟨?_, ?_, ?_⟩
    · rw [hres, buildResults_length _ _ _ hb, hlen]
    · rw [hres, List.Sorted, buildResults_map_score _ _ _ hb]
      exact List.pairwise_map.mpr (searchIndex_sorted s.index qv (min k s.index.length))
    · intro j hj
      have hj' : j < (searchIndex s.index qv (min k s.index.length)).length := by
        rw [hres, buildResults_length _ _ _ hb] at hj
        exact hj
      have hxm : (searchIndex s.index qv (min k s.index.length)).getD j (0, 0)
          ∈ searchIndex s.index qv (min k s.index.length) := by
        rw [List.getD_eq_getElem _ _ hj']
        exact List.getElem_mem hj'
      obtain ⟨hslot, hdist⟩ := searchIndex_mem s.index qv (min k s.index.length) _ hxm
      refine ⟨((searchIndex s.index qv (min k s.index.length)).getD j (0, 0)).2, hslot, ?_⟩
      rw [hres, buildResults_getD s.metadata 0 j _ hb hj', ← hdist, Nat.zero_add]

/-- Witness for C5 on the concrete two-document store: two results come
back, scores sorted, and the first result joins a concrete record with
rank 1. -/
theorem similarity_search_ranked_witness :
    (similarity_search twoDocStore embedOK "query" 5).length = min 5 twoDocStore.index.length
    ∧ List.Sorted (· ≤ ·)
        ((similarity_search twoDocStore embedOK "query" 5).map fun r => r.similarity_score)
    ∧ ∃ slot, slot < twoDocStore.index.length
        ∧ (similarity_search twoDocStore embedOK "query" 5).getD 0 default
            = joinMeta (twoDocStore.metadata.getD slot default)
                (l2dist [0, 0] (twoDocStore.index.getD slot default)) 1 := by
  have h := similarity_search_ranked twoDocStore embedOK "query" 5 [0, 0] rfl rfl (by decide)
    (by decide)
  exact ⟨h.1, h.2.1, h.2.2 0 (by rw [h.1]; decide)⟩

/-- Dict assignment followed by lookup of the same key yields the stored
history. -/
theorem lookup_updateConv_self (conv : Conversations) (cid : String) (h : List Msg) :
    (updateConv conv cid h).lookup cid = some h := by
  induction conv with
  | nil => simp [updateConv, List.lookup]
  | cons kv rest ih =>
    obtain ⟨key, v⟩ := kv
    unfold updateConv
    by_cases hk : key = cid
    · rw [if_pos hk]
      simp [List.lookup, hk]
    · rw [if_neg hk]
      have hne : (cid == key) = false := by
        simp [Ne.symm hk]
      simp [List.lookup, hne, ih]

/-- Dict assignment leaves the histories of the other keys untouched. -/
theorem lookup_updateConv_ne (conv : Conversations) (cid c : String) (h : List Msg)
    (hc : c ≠ cid) :
    (updateConv conv cid h).lookup c = conv.lookup c := by
  induction conv with
  | nil =>
    have hne : (c == cid) = false := by simp [hc]
    simp [updateConv, List.lookup, hne]
  | cons kv rest ih =>
    obtain ⟨key, v⟩ := kv
    unfold updateConv
    by_cases hk : key = cid
    · rw [if_pos hk]
      subst hk
      have hne : (c == key) = false := by simp [hc]
      simp [List.lookup, hne]
    · rw [if_neg hk]
      simp [List.lookup, ih]

/-- The trimmed history is bounded by 20 entries, keeps even length even,
and is a suffix of the extended history (oldest entries dropped first). -/
theorem histAfter_shape (old : List Msg) (q a : String) :
    (histAfter old q a).length ≤ 20
    ∧ (old.length % 2 = 0 → (histAfter old q a).length % 2 = 0)
    ∧ (histAfter old q a).IsSuffix (old ++ [⟨"user", q⟩, ⟨"assistant", a⟩]) := by
  unfold histAfter
  by_cases hlen : 20 < (old ++ [(⟨"user", q⟩ : Msg), (⟨"assistant", a⟩ : Msg)]).length
  · rw [if_pos hlen]
    simp only [List.length_append, List.length_cons, List.length_nil] at hlen
    refine ⟨?_, ?_, List.drop_suffix _ _⟩
    · simp only [List.length_drop, List.length_append, List.length_cons, List.length_nil]
      omega
    · intro hp
      simp only [List.length_drop, List.length_append, List.length_cons, List.length_nil]
      omega
  · rw [if_neg hlen]
    simp only [List.length_append, List.length_cons, List.length_nil] at hlen
    refine ⟨?_, ?_, List.suffix_refl _⟩
    · simp only [List.length_append, List.length_cons, List.length_nil]
      omega
    · intro hp
      simp only [List.length_append, List.length_cons, List.length_nil]
      omega

/-- Each chat call preserves the even-and-at-most-20 shape of every
stored history. -/
theorem chatStep_inv (cs : ChatService) (q cid : String) (r : Option String)
    (hinv : ∀ c, (((cs.conversations.lookup c).getD []).length ≤ 20
      ∧ ((cs.conversations.lookup c).getD []).length % 2 = 0)) :
    ∀ c, ((((cs.chat q cid r).2.conversations.lookup c).getD []).length ≤ 20
      ∧ (((cs.chat q cid r).2.conversations.lookup c).getD []).length % 2 = 0) := by
  intro c
  unfold ChatService.chat
  by_cases hllm : cs.llmConfigured = false
  · rw [if_pos hllm]
    exact hinv c
  · rw [if_neg hllm]
    cases r with
    | none => exact hinv c
    | some a =>
      simp only []
      by_cases hc : c = cid
      · subst hc
        rw [lookup_updateConv_self]
        have hs := histAfter_shape ((cs.conversations.lookup c).getD []) q a
        exact ⟨hs.1, hs.2.1 (hinv c).2⟩
      · rw [lookup_updateConv_ne _ _ _ _ hc]
        exact hinv c

/-- Every sequence of chat calls preserves the history shape
invariant. -/
theorem runChat_inv (calls : List ChatCall) (cs : ChatService)
    (hinv : ∀ c, (((cs.conversations.lookup c).getD []).length ≤ 20
      ∧ ((cs.conversations.lookup c).getD []).length % 2 = 0)) :
    ∀ c, ((((runChat cs calls).conversations.lookup c).getD []).length ≤ 20
      ∧ (((runChat cs calls).conversations.lookup c).getD []).length % 2 = 0) := by
  induction calls generalizing cs with
  | nil => exact hinv
  | cons call rest ih =>
    obtain ⟨q, cid, r⟩ := call
    exact ih _ (chatStep_inv cs q cid r hinv)

/-- C8: a successful chat call replaces the conversation's history with
the old history plus the user question and assistant answer, trimmed to
the most recent 20 entries (a suffix of the extended history, oldest
dropped first) and leaves other conversations untouched; a failed
completion or an unconfigured LLM leaves conversations unchanged; the
local chat variant applies the same update; and along every sequence of
chat calls from a fresh service every stored history has even length at
most 20. -/
theorem chat_history_contract :
    (∀ (cs : ChatService) (q cid a : String), cs.llmConfigured = true →
        (cs.chat q cid (some a)).2.conversations.lookup cid
          = some (histAfter ((cs.conversations.lookup cid).getD []) q a))
    ∧ (∀ (cs : ChatService) (q cid a c : String), cs.llmConfigured = true → c ≠ cid →
        (cs.chat q cid (some a)).2.conversations.lookup c = cs.conversations.lookup c)
    ∧ (∀ (cs : ChatService) (q cid : String), (cs.chat q cid none).2 = cs)
    ∧ (∀ (cs : ChatService) (q cid : String) (r : Option String),
        cs.llmConfigured = false → (cs.chat q cid r).2 = cs)
    ∧ (∀ (old : List Msg) (q a : String),
        (histAfter old q a).IsSuffix (old ++ [⟨"user", q⟩, ⟨"assistant", a⟩]))
    ∧ (∀ (conv : Conversations) (q cid a : String),
        (LocalChatService.chat conv q cid a).lookup cid
          = some (histAfter ((conv.lookup cid).getD []) q a))
    ∧ (∀ (b : Bool) (calls : List ChatCall) (c : String),
        (((runChat ⟨b, []⟩ calls).conversations.lookup c).getD []).length ≤ 20
        ∧ (((runChat ⟨b, []⟩ calls).conversations.lookup c).getD []).length % 2 = 0) := by
  refine ⟨?_, ?_, ?_, ?_, ?_, ?_, ?_⟩
  · intro cs q cid a hllm
    unfold ChatService.chat
    rw [hllm]
    simp only [Bool.true_eq_false, if_false]
    exact lookup_updateConv_self _ _ _
  · intro cs q cid a c hllm hc
    unfold ChatService.chat
    rw [hllm]
    simp only [Bool.true_eq_false, if_false]
    exact lookup_updateConv_ne _ _ _ _ hc
  · intro cs q cid
    unfold ChatService.chat
    by_cases hllm : cs.llmConfigured = false
    · rw [if_pos hllm]
    · rw [if_neg hllm]
  · intro cs q cid r hllm
    unfold ChatService.chat
    rw [if_pos hllm]
  · intro old q a
    exact (histAfter_shape old q a).2.2
  · intro conv q cid a
    unfold LocalChatService.chat
    exact lookup_updateConv_self _ _ _
  · intro b calls c
    refine runChat_inv calls ⟨b, []⟩ ?_ c
    intro c0
    simp [List.lookup]

/-- Witness for C8: one successful call on a fresh configured service
stores the expected pair; failed and unconfigured calls change nothing;
the resulting history obeys the shape bound. -/
theorem chat_history_contract_witness :
    (ChatService.chat ⟨true, []⟩ "q1" "c1" (some "a1")).2.conversations.lookup "c1"
      = some (histAfter ((([] : Conversations).lookup "c1").getD []) "q1" "a1")
    ∧ (ChatService.chat ⟨true, []⟩ "q1" "c1" none).2 = (⟨true, []⟩ : ChatService)
    ∧ (ChatService.chat ⟨false, []⟩ "q1" "c1" (some "a1")).2 = (⟨false, []⟩ : ChatService)
    ∧ (((runChat ⟨true, []⟩ [ChatCall.call "q1" "c1" (some "a1")]).conversations.lookup
        "c1").getD []).length ≤ 20 :=
  ⟨chat_history_contract.1 ⟨true, []⟩ "q1" "c1" "a1" rfl,
   chat_history_contract.2.2.1 ⟨true, []⟩ "q1" "c1",
   chat_history_contract.2.2.2.1 ⟨false, []⟩ "q1" "c1" (some "a1") rfl,
   (chat_history_contract.2.2.2.2.2.2 true [ChatCall.call "q1" "c1" (some "a1")] "c1").1⟩
